import Mathlib

/-!
Shallow embedding of the AxolotlSD sound driver (src/include/axolotlsd.hpp,
src/src/axolotlsd.cpp), with theorems settling the claims about its
specification.

Machine model used throughout:
* `U8`/`U16`/`U32` are `Nat`; values stay in range by construction, and where
  C++ wrap-around semantics matter we take `% 2 ^ w` explicitly.
* `S32` is `Int` (bit-cast from a `U32` via `s32_of_u32`).
* `F32` is `ℚ` (exact arithmetic).  The two transcendental constants the
  player consumes — `std::pow(2.0f, ·)` in `calculate_12tet` and
  `std::numbers::pi` in the drum phase step — are taken as parameters
  (`floatOps`); every theorem below holds for an arbitrary choice.
* fallible C++ operations (`std::map::at`, `std::vector::at`, unchecked
  `operator[]` past the end, `throw`) are modelled with `Option`/`Except`:
  `none`/`.error` marks the rendering call aborting.
-/

namespace axolotlsd

/-- Clamp `std::clamp(v, lo, hi)` (axolotlsd.cpp uses it with `lo = -1`,
`hi = 1`). -/
def clampQ (v lo hi : ℚ) : ℚ :=
  if v < lo then lo else if hi < v then hi else v

/-- Source `calculate_mix` (axolotlsd.cpp:50): `x * (1 - a) + y * a`. -/
def calculate_mix (x y a : ℚ) : ℚ :=
  x * (1 - a) + y * a

/-- Source `calculate_12tet` (axolotlsd.cpp:46):
`pow(2, (note - 69 + bend) / 12) * 440`, with `pow(2, ·)` abstracted as the
parameter `e2`. -/
def calculate_12tet (e2 : ℚ → ℚ) (note : Nat) (bend : ℚ) : ℚ :=
  e2 (((note : ℚ) - 69 + bend) / 12) * 440

/-- Truncation toward zero, the C behaviour of `static_cast` from a float
(`Int.div` is T-division, rounding toward zero). -/
def qtrunc (x : ℚ) : ℤ :=
  x.num.tdiv (x.den : Int)

/-- Cast of a (nonnegative in all reachable states) float to `U32`; the
melodic path applies `std::floor` first, which agrees with truncation on
nonnegative values (`Int.fdiv` is floored division). -/
def f32_to_u32 (x : ℚ) : Nat :=
  (x.num.fdiv (x.den : Int)).toNat

/-- C `std::fmod`: `x - trunc(x / y) * y`.  (For `y = 0` C produces NaN; in
the rational model `x / 0 = 0` so the result is `x`.) -/
def fmodQ (x y : ℚ) : ℚ :=
  x - (qtrunc (x / y) : ℚ) * y

/-- Little-endian assembly `b0 | b1 << 8 | b2 << 16 | b3 << 24` used all over
`song::load`. -/
def le32 (b0 b1 b2 b3 : Nat) : Nat :=
  b0 ||| (b1 <<< 8) ||| (b2 <<< 16) ||| (b3 <<< 24)

/-- Little-endian 16-bit assembly (the `version` record). -/
def le16 (b0 b1 : Nat) : Nat :=
  b0 ||| (b1 <<< 8)

/-- Bit-cast of a `U32` pattern to `S32` (`std::bit_cast<S32>` in the
pitch-wheel record). -/
def s32_of_u32 (n : Nat) : Int :=
  if n < 2 ^ 31 then (n : Int) else (n : Int) - 2 ^ 32

/-- Exact value of the IEEE-754 binary32 number with bit pattern `b`
(`std::bit_cast<F32>` in the patch/drum records).  Infinities and NaNs have
no rational value; they are mapped to `0` (none of the theorems below
evaluates the decoder on such a pattern). -/
def f32_of_bits (b : Nat) : ℚ :=
  let sign : ℚ := if b / 2 ^ 31 % 2 = 1 then -1 else 1
  let e : Nat := b / 2 ^ 23 % 2 ^ 8
  let m : Nat := b % 2 ^ 23
  if e = 0 then sign * (m : ℚ) / 2 ^ 23 / 2 ^ 126
  else if e = 255 then 0
  else if 127 ≤ e then sign * ((2 ^ 23 + m : ℚ) / 2 ^ 23) * ((2 ^ (e - 127) : Nat) : ℚ)
  else sign * ((2 ^ 23 + m : ℚ) / 2 ^ 23) / ((2 ^ (127 - e) : Nat) : ℚ)

/-- Melodic patch (`patch_t`, axolotlsd.hpp:106): waveform bytes, phase
ratio, stereo gains and the loop points. -/
structure patch_t where
  waveform : List Nat
  ratio : ℚ
  gain_L : ℚ
  gain_R : ℚ
  loop_start : Nat
  loop_end : Nat
deriving DecidableEq

/-- Drum patch (`drum_t`, axolotlsd.hpp:112): as `patch_t` minus the loop
fields. -/
structure drum_t where
  waveform : List Nat
  ratio : ℚ
  gain_L : ℚ
  gain_R : ℚ
deriving DecidableEq

/-- Event records (`command` hierarchy, axolotlsd.hpp:58-97), flattened to a
tagged variant. -/
inductive command where
  | note_on (channel note velocity : Nat)
  | note_off (channel : Nat)
  | pitchwheel (channel : Nat) (bend : Int)
  | program_change (channel program : Nat)
  | patch_data
  | drum_data
  | version (v : Nat)
  | rate (r : Nat)
  | end_of_track
deriving DecidableEq

/-- Song (`struct song`, axolotlsd.hpp:139).  The `std::multimap` of commands
is an insertion-ordered association list (equal-key order in a multimap is
insertion order, which is what `equal_range` iteration observes); `patches`
and `drums` are association lists with unique keys (`std::map`). -/
structure song where
  version : Nat
  ticks_end : Nat
  ticks_per_second : Nat
  commands : List (Nat × command)
  patches : List (Nat × patch_t)
  drums : List (Nat × drum_t)
deriving DecidableEq

/-- Value of `song{}` in `song::load`: value-initialization zeroes the scalar
fields and the containers start empty. -/
def initial_song : song :=
  { version := 0, ticks_end := 0, ticks_per_second := 0
    commands := [], patches := [], drums := [] }

/-- Payload byte count per tag (`byte_sizes` map, axolotlsd.cpp:31);
`std::map::at` on an unknown tag throws, modelled by `.error`. -/
def byte_size (tag : Nat) : Except String Nat :=
  if tag = 0x01 then .ok 7
  else if tag = 0x02 then .ok 5
  else if tag = 0x03 then .ok 9
  else if tag = 0x04 then .ok 6
  else if tag = 0x80 then .ok 25
  else if tag = 0x81 then .ok 17
  else if tag = 0xFC then .ok 2
  else if tag = 0xFD then .ok 4
  else if tag = 0xFE then .ok 4
  else .error "unknown tag"

/-- Sequential `data.at(...)` reads of `count` bytes starting at `start`;
running past the end of the buffer throws (`.error`). -/
def read_bytes (data : List Nat) (start count : Nat) : Except String (List Nat) :=
  if start + count ≤ data.length then .ok ((data.drop start).take count)
  else .error "Truncated"

/-- Source case `note_on` of `song::load` (axolotlsd.cpp:478): the record is
keyed by its carried tick. -/
def apply_note_on (s : song) (t ch note vel : Nat) : song :=
  { s with commands := s.commands ++ [(t, .note_on ch note vel)] }

/-- Source case `note_off` of `song::load` (axolotlsd.cpp:503). -/
def apply_note_off (s : song) (t ch : Nat) : song :=
  { s with commands := s.commands ++ [(t, .note_off ch)] }

/-- Source case `pitchwheel` of `song::load` (axolotlsd.cpp:524). -/
def apply_pitchwheel (s : song) (t ch : Nat) (bend : Int) : song :=
  { s with commands := s.commands ++ [(t, .pitchwheel ch bend)] }

/-- Source case `program_change` of `song::load` (axolotlsd.cpp:557). -/
def apply_program_change (s : song) (t ch prog : Nat) : song :=
  { s with commands := s.commands ++ [(t, .program_change ch prog)] }

/-- Source case `version` of `song::load` (axolotlsd.cpp:580): sets
`the_song.version` and emplaces the record at tick 0. -/
def apply_version (s : song) (v : Nat) : song :=
  { s with version := v, commands := s.commands ++ [(0, .version v)] }

/-- Source case `rate` of `song::load` (axolotlsd.cpp:598): sets
`the_song.ticks_per_second` and emplaces the record at tick 0. -/
def apply_rate (s : song) (r : Nat) : song :=
  { s with ticks_per_second := r, commands := s.commands ++ [(0, .rate r)] }

/-- Source case `end_of_track` of `song::load` (axolotlsd.cpp:617): the
record is emplaced at the *current* `the_song.ticks_end`, and only then is
`ticks_end` assigned the tick carried by the record. -/
def apply_end_of_track (s : song) (t : Nat) : song :=
  { s with commands := s.commands ++ [(s.ticks_end, .end_of_track)]
           ticks_end := t }

/-- Source case `patch_data` of `song::load` (axolotlsd.cpp:395):
`std::map::insert` keeps an existing entry, and the record itself is
emplaced at tick 0. -/
def apply_patch_data (s : song) (id : Nat) (wave : List Nat)
    (ls le : Nat) (rt gl gr : ℚ) : song :=
  { s with
      patches :=
        if (s.patches.lookup id).isSome then s.patches
        else s.patches ++ [(id, ⟨wave, rt, gl, gr, ls, le⟩)]
      commands := s.commands ++ [(0, .patch_data)] }

/-- Source case `drum_data` of `song::load` (axolotlsd.cpp:333). -/
def apply_drum_data (s : song) (id : Nat) (wave : List Nat)
    (rt gl gr : ℚ) : song :=
  { s with
      drums :=
        if (s.drums.lookup id).isSome then s.drums
        else s.drums ++ [(id, ⟨wave, rt, gl, gr⟩)]
      commands := s.commands ++ [(0, .drum_data)] }

/-- Dispatch of one fixed-size record from its payload bytes (the `switch`
of `song::load` for the tags whose payload is complete — patch and drum
records, which additionally consume their waveform bytes, are handled by the
loop itself).  The payload bytes are popped front-first, so byte 0 is the
least significant byte of the leading little-endian field. -/
def decode_record (tag : Nat) (p : List Nat) (s : song) : song :=
  if tag = 0x01 then
    apply_note_on s (le32 (p.getD 0 0) (p.getD 1 0) (p.getD 2 0) (p.getD 3 0))
      (p.getD 4 0) (p.getD 5 0) (p.getD 6 0)
  else if tag = 0x02 then
    apply_note_off s (le32 (p.getD 0 0) (p.getD 1 0) (p.getD 2 0) (p.getD 3 0))
      (p.getD 4 0)
  else if tag = 0x03 then
    apply_pitchwheel s (le32 (p.getD 0 0) (p.getD 1 0) (p.getD 2 0) (p.getD 3 0))
      (p.getD 4 0)
      (s32_of_u32 (le32 (p.getD 5 0) (p.getD 6 0) (p.getD 7 0) (p.getD 8 0)))
  else if tag = 0x04 then
    apply_program_change s (le32 (p.getD 0 0) (p.getD 1 0) (p.getD 2 0) (p.getD 3 0))
      (p.getD 4 0) (p.getD 5 0)
  else if tag = 0xFC then
    apply_version s (le16 (p.getD 0 0) (p.getD 1 0))
  else if tag = 0xFD then
    apply_rate s (le32 (p.getD 0 0) (p.getD 1 0) (p.getD 2 0) (p.getD 3 0))
  else if tag = 0xFE then
    apply_end_of_track s (le32 (p.getD 0 0) (p.getD 1 0) (p.getD 2 0) (p.getD 3 0))
  else s

/-- Record loop of `song::load` (axolotlsd.cpp:318-637).  `w` is the source's
`where` index of the next tag byte; the loop runs while `w < data.length`.
Each iteration consumes at least one byte, so the `fuel` argument — started
at `data.length + 1` by `song.load` — never runs out on any input; the fuel
case exists only to make the recursion structural. -/
def load_loop (data : List Nat) : Nat → Nat → song → Except String song
  | _, 0, _ => .error "internal: fuel exhausted"
  | w, fuel + 1, s =>
    if w < data.length then
      let tag := data.getD w 0
      match byte_size tag with
      | .error e => .error e
      | .ok size =>
        match read_bytes data (w + 1) size with
        | .error e => .error e
        | .ok p =>
          if tag = 0x80 then
            let width := le32 (p.getD 1 0) (p.getD 2 0) (p.getD 3 0) (p.getD 4 0)
            match read_bytes data (w + 1 + size) width with
            | .error e => .error e
            | .ok wave =>
              load_loop data (w + 1 + size + width) fuel
                (apply_patch_data s (p.getD 0 0) wave
                  (le32 (p.getD 5 0) (p.getD 6 0) (p.getD 7 0) (p.getD 8 0))
                  (le32 (p.getD 9 0) (p.getD 10 0) (p.getD 11 0) (p.getD 12 0))
                  (f32_of_bits (le32 (p.getD 13 0) (p.getD 14 0) (p.getD 15 0) (p.getD 16 0)))
                  (f32_of_bits (le32 (p.getD 17 0) (p.getD 18 0) (p.getD 19 0) (p.getD 20 0)))
                  (f32_of_bits (le32 (p.getD 21 0) (p.getD 22 0) (p.getD 23 0) (p.getD 24 0))))
          else if tag = 0x81 then
            let width := le32 (p.getD 1 0) (p.getD 2 0) (p.getD 3 0) (p.getD 4 0)
            match read_bytes data (w + 1 + size) width with
            | .error e => .error e
            | .ok wave =>
              load_loop data (w + 1 + size + width) fuel
                (apply_drum_data s (p.getD 0 0) wave
                  (f32_of_bits (le32 (p.getD 5 0) (p.getD 6 0) (p.getD 7 0) (p.getD 8 0)))
                  (f32_of_bits (le32 (p.getD 9 0) (p.getD 10 0) (p.getD 11 0) (p.getD 12 0)))
                  (f32_of_bits (le32 (p.getD 13 0) (p.getD 14 0) (p.getD 15 0) (p.getD 16 0))))
          else
            load_loop data (w + 1 + size) fuel (decode_record tag p s)
    else .ok s

/-- Source `song::load` (axolotlsd.cpp:301): the first four bytes are the
big-endian magic `AXSD`; the record loop starts at index 4.  The magic bytes
are read with unchecked `operator[]`, so a buffer shorter than 4 bytes is an
out-of-bounds read, modelled as an error. -/
def song.load (data : List Nat) : Except String song :=
  match data[0]?, data[1]?, data[2]?, data[3]? with
  | some a, some b, some c, some d =>
    if le32 d c b a = 0x41585344 then
      load_loop data 4 (data.length + 1) initial_song
    else .error "First 4 bytes of this song are not AXSD"
  | _, _, _, _ => .error "out of range"

/-- Echo configuration (`struct environment`, axolotlsd.hpp:151). -/
structure environment where
  feedback_L : ℚ
  feedback_R : ℚ
  wet_L : ℚ
  wet_R : ℚ
  cursor_increment : Nat
  cursor_max : Nat
deriving DecidableEq

/-- Live voice (`struct voice_single`, axolotlsd.hpp:117). -/
structure voice_single where
  velocity : ℚ
  phase_add_by : ℚ
  note : Nat
  phase : ℚ := 0
  key : Bool := true
  active : Bool := true
deriving DecidableEq

/-- Per-channel group.  The source's virtual `voice_group`/`drum_group`
hierarchy (axolotlsd.hpp:125-137) is flattened: `isDrum` is the
`is_drum_kit()` tag, and `bend` (meaningful for melodic groups only, where
the source keeps it) rides along unused for drum groups. -/
structure group where
  isDrum : Bool
  voices : List voice_single
  bend : ℚ := 0
deriving DecidableEq

/-- Transcendental float constants consumed by the player: `pow2` stands for
`std::pow(2.0f, ·)` (`calculate_12tet`) and `pi` for `std::numbers::pi`
(the drum phase step).  All theorems below hold for every choice. -/
structure floatOps where
  pow2 : ℚ → ℚ
  pi : ℚ

/-- Player state (`struct player`, axolotlsd.hpp:159).  The fixed 65535-float
echo arrays are total functions from the index (only indices written are ever
read back, and `echo_cursor` stays below 65535 whenever `cursor_max ≤ 65535`
as the spec requires). -/
structure player where
  seconds_elapsed : ℚ
  seconds_end : ℚ
  frequency : ℚ
  max_voices : Nat
  on_voices : Nat
  echo_buffer_L : Nat → ℚ
  echo_buffer_R : Nat → ℚ
  echo_cursor : Nat
  env_params : Option environment
  cursor : Nat
  last_cursor : Option Nat
  current : song
  in_stereo : Bool
  channels : List group
  patch_ids : List (Option Nat)
  playback : Bool

/-- Channel array installed by `player::play` (axolotlsd.cpp:62-73): slot 9
becomes a fresh `drum_group`, every other slot a fresh `voice_group`. -/
def fresh_channels : List group :=
  (List.range 16).map (fun i => if i = 9 then ⟨true, [], 0⟩ else ⟨false, [], 0⟩)

/-- Source `player::play` (axolotlsd.cpp:57).  The C++ member function
mutates in place and *throws* on a version mismatch after having already
swapped the song in, replaced the channel groups, cleared the patch
bindings and recomputed `seconds_elapsed`/`seconds_end`; the embedding
returns `.error` carrying the player state visible after the throw. -/
def player.play (p : player) (next : song) (env : Option environment) :
    Except player player :=
  let p1 :=
    { p with
        env_params := env
        current := next
        channels := fresh_channels
        patch_ids := List.replicate 16 none
        seconds_elapsed := 0
        seconds_end := (next.ticks_end : ℚ) / (next.ticks_per_second : ℚ) }
  if next.version ≠ 3 then .error p1
  else
    .ok { p1 with on_voices := 0, cursor := 0, echo_cursor := 0
                  last_cursor := none, playback := true }

/-- Modelled from the spec: `player::pause` is declared in the public header
(axolotlsd.hpp:185) but its body is not among the repository sources under
src/; the spec states it sets `playback = false` and touches nothing else. -/
def player.pause (p : player) : player :=
  { p with playback := false }

/-- NoteOff handling (axolotlsd.cpp:173-179): `std::find_if` locates the
first voice whose key is still held and releases it; an empty list or a list
with no held voice is left unchanged. -/
def key_off_first : List voice_single → List voice_single
  | [] => []
  | v :: vs => if v.key then { v with key := false } :: vs else v :: key_off_first vs

/-- Index fold of `voice_group::accumulate_into` (axolotlsd.cpp:95-104):
`here = U32(floor(ratio * phase))`, folded back into the loop region when the
patch loops, the index has passed `loop_end` and the key is still held. -/
def voice_index (patch : patch_t) (v : voice_single) : Nat :=
  let here := f32_to_u32 (patch.ratio * v.phase)
  if patch.loop_start ≠ 0xFFFFFFFF ∧ patch.loop_end < here ∧ v.key = true then
    (here - patch.loop_start) % (patch.loop_end - patch.loop_start) + patch.loop_start
  else here

/-- Per-voice body of `voice_group::accumulate_into` (axolotlsd.cpp:93-110):
an index at or past the waveform end deactivates the voice and leaves the
sample at 0; otherwise the 8-bit sample is rebiased.  The phase always
advances. -/
def voice_step (patch : patch_t) (v : voice_single) : voice_single × ℚ :=
  let here := voice_index patch v
  if patch.waveform.length ≤ here then
    ({ v with active := false, phase := v.phase + v.phase_add_by }, 0)
  else
    ({ v with phase := v.phase + v.phase_add_by },
      ((patch.waveform.getD here 0 : ℚ) - 128) / 128)

/-- Source `voice_group::accumulate_into` (axolotlsd.cpp:92): every voice
contributes `sample * velocity * gain` into the running left/right mix. -/
def voice_group_accumulate_into (patch : patch_t) :
    List voice_single → ℚ → ℚ → List voice_single × ℚ × ℚ
  | [], l, r => ([], l, r)
  | v :: rest, l, r =>
    let (v1, s) := voice_step patch v
    let out := voice_group_accumulate_into patch rest
      (l + s * v.velocity * patch.gain_L) (r + s * v.velocity * patch.gain_R)
    (v1 :: out.1, out.2)

/-- Source `drum_group::accumulate_into` (axolotlsd.cpp:117): a voice whose
note has no entry in the drum map is deactivated and mixes with zero gains;
otherwise the sample is fetched like the melodic path (truncating cast, no
looping) and the phase advances only in the found branch. -/
def drum_group_accumulate_into (drums : List (Nat × drum_t)) :
    List voice_single → ℚ → ℚ → List voice_single × ℚ × ℚ
  | [], l, r => ([], l, r)
  | d :: rest, l, r =>
    match drums.lookup d.note with
    | some patch =>
      let here := f32_to_u32 (patch.ratio * d.phase)
      let (d1, s) :=
        if patch.waveform.length ≤ here then ({ d with active := false }, (0 : ℚ))
        else (d, ((patch.waveform.getD here 0 : ℚ) - 128) / 128)
      let d2 := { d1 with phase := d1.phase + d1.phase_add_by }
      let out := drum_group_accumulate_into drums rest
        (l + s * d.velocity * patch.gain_L) (r + s * d.velocity * patch.gain_R)
      (d2 :: out.1, out.2)
    | none =>
      let out := drum_group_accumulate_into drums rest l r
      ({ d with active := false } :: out.1, out.2)

/-- Event dispatch (the `switch` of `player::handle_one`,
axolotlsd.cpp:150-205).  `channels[...]` and `patch_ids[...]` are unchecked
`std::array` indexing: an out-of-range channel byte is an out-of-bounds
access, modelled by `none`. -/
def dispatch_one (fl : floatOps) (p : player) : command → Option player
  | .note_on ch note vel =>
    if p.on_voices < p.max_voices then
      match p.channels[ch]? with
      | none => none
      | some g =>
        if g.isDrum then
          let pa := 440 * p.frequency * 32 * fl.pi
          some { p with channels :=
            p.channels.set ch { g with voices := g.voices ++ [⟨(vel : ℚ) / 127, pa, note, 0, true, true⟩] } }
        else
          let pa := calculate_12tet fl.pow2 note g.bend * p.frequency * 100
          some { p with channels :=
            p.channels.set ch { g with voices := g.voices ++ [⟨(vel : ℚ) / 127, pa, note, 0, true, true⟩] } }
    else some p
  | .note_off ch =>
    match p.channels[ch]? with
    | none => none
    | some g =>
      some { p with channels := p.channels.set ch { g with voices := key_off_first g.voices } }
  | .pitchwheel ch bend =>
    match p.channels[ch]? with
    | none => none
    | some g =>
      if g.isDrum then some p
      else
        let b := (bend : ℚ) / 4096
        let g1 := { g with
          bend := b
          voices := g.voices.map (fun v =>
            { v with phase_add_by := calculate_12tet fl.pow2 v.note b * p.frequency * 100 }) }
        some { p with channels := p.channels.set ch g1 }
  | .program_change ch prog =>
    if ch < p.patch_ids.length then
      some { p with patch_ids := p.patch_ids.set ch (some prog) }
    else none
  | _ => some p

/-- Derived tick cursor (axolotlsd.cpp:145):
`cursor = U32(ticks_per_second * seconds_elapsed)`. -/
def next_cursor (p : player) : Nat :=
  f32_to_u32 ((p.current.ticks_per_second : ℚ) * p.seconds_elapsed)

/-- Dispatch guard (axolotlsd.cpp:146):
`!last_cursor.has_value() || cursor > last_cursor.value()`. -/
def dispatch_guard (p : player) (c : Nat) : Bool :=
  match p.last_cursor with
  | none => true
  | some lc => decide (lc < c)

/-- Events the frame dispatches: exactly the commands keyed by the current
cursor (`commands.equal_range(cursor)`, axolotlsd.cpp:147) when the guard
holds, none otherwise. -/
def dispatched_cmds (p : player) : List (Nat × command) :=
  if dispatch_guard p (next_cursor p) then
    p.current.commands.filter (fun tc => tc.1 = next_cursor p)
  else []

/-- Cursor update and event dispatch of `player::handle_one`
(axolotlsd.cpp:145-208): the cursor field is always refreshed; when the
guard holds the events at the current cursor run in order and `last_cursor`
is recorded. -/
def dispatch_stage (fl : floatOps) (p : player) : Option player :=
  let c := next_cursor p
  let p1 := { p with cursor := c }
  if dispatch_guard p c then
    (List.foldlM (fun q tc => dispatch_one fl q tc.2) p1 (dispatched_cmds p)).map
      (fun q => { q with last_cursor := some c })
  else some p1

/-- Per-channel mixing step (loop body of axolotlsd.cpp:210-225): inactive
voices are erased first; a drum channel always mixes against the drum map; a
melodic channel mixes only when a program is bound, and the bound program is
looked up with `std::map::at`, which *throws* when the program is absent
from `patches` — modelled by `none`.  The value paired with the new group is
the count the source adds to `on_voices` (`voices.size()` after
accumulation). -/
def mix_one (drums : List (Nat × drum_t)) (patches : List (Nat × patch_t))
    (pid : Option Nat) (g : group) (l r : ℚ) : Option (group × Nat × ℚ × ℚ) :=
  let g1 := { g with voices := g.voices.filter (fun v => v.active) }
  if g1.isDrum then
    let out := drum_group_accumulate_into drums g1.voices l r
    some ({ g1 with voices := out.1 }, out.1.length, out.2)
  else
    match pid with
    | none => some (g1, 0, l, r)
    | some id =>
      match patches.lookup id with
      | none => none
      | some patch =>
        let out := voice_group_accumulate_into patch g1.voices l r
        some ({ g1 with voices := out.1 }, out.1.length, out.2)

/-- Mixing loop over the 16 channel/binding pairs, threading the running
left/right mix and summing the per-channel voice counts into `on_voices`. -/
def mix_channels (drums : List (Nat × drum_t)) (patches : List (Nat × patch_t)) :
    List (group × Option Nat) → ℚ → ℚ → Option (List group × Nat × ℚ × ℚ)
  | [], l, r => some ([], 0, l, r)
  | (g, pid) :: rest, l, r =>
    match mix_one drums patches pid g l r with
    | none => none
    | some (g1, n, l1, r1) =>
      match mix_channels drums patches rest l1 r1 with
      | none => none
      | some (gs, m, l2, r2) => some (g1 :: gs, n + m, l2, r2)

/-- Mixing half of `player::handle_one` (axolotlsd.cpp:209-225):
`on_voices` is reset and recomputed while the channels are mixed in order. -/
def mix_stage (p : player) (l r : ℚ) : Option (player × ℚ × ℚ) :=
  match mix_channels p.current.drums p.current.patches (p.channels.zip p.patch_ids) l r with
  | none => none
  | some (gs, n, l1, r1) => some ({ p with channels := gs, on_voices := n }, l1, r1)

/-- Source `player::handle_one` (axolotlsd.cpp:144): event dispatch followed
by the mix of all 16 channels into the frame's left/right accumulators. -/
def player.handle_one (fl : floatOps) (p : player) (l r : ℚ) :
    Option (player × ℚ × ℚ) :=
  match dispatch_stage fl p with
  | none => none
  | some p1 => mix_stage p1 l r

/-- Source `player::maybe_echo_one` (axolotlsd.cpp:228): the delay line is
fed, scaled by the feedback, clamped in place, mixed into the dry signal,
and the cursor advances by `cursor_increment` (a `U16`, hence the `% 2 ^ 16`)
modulo `cursor_max`. -/
def player.maybe_echo_one (p : player) (l r : ℚ) : player × ℚ × ℚ :=
  match p.env_params with
  | none => (p, l, r)
  | some env =>
    let eL := clampQ ((p.echo_buffer_L p.echo_cursor + l) * env.feedback_L) (-1) 1
    let eR := clampQ ((p.echo_buffer_R p.echo_cursor + r) * env.feedback_R) (-1) 1
    ({ p with
        echo_buffer_L := fun i => if i = p.echo_cursor then eL else p.echo_buffer_L i
        echo_buffer_R := fun i => if i = p.echo_cursor then eR else p.echo_buffer_R i
        echo_cursor := (p.echo_cursor + env.cursor_increment) % 2 ^ 16 % env.cursor_max },
      calculate_mix l eL env.wet_L, calculate_mix r eR env.wet_R)

/-- Song-end wrap (axolotlsd.cpp:260-263): past `seconds_end` the elapsed
time wraps by `fmod` and the dispatch memory is cleared. -/
def wrap_seconds (p : player) : player :=
  if p.seconds_end < p.seconds_elapsed then
    { p with seconds_elapsed := fmodQ p.seconds_elapsed p.seconds_end
             last_cursor := none }
  else p

/-- One output frame of `player::tick` (loop body, axolotlsd.cpp:253-268):
when playing, the frame is rendered and time advances (with wrap); the echo
runs regardless of playback. -/
def frame (fl : floatOps) (p : player) : Option (player × ℚ × ℚ) :=
  if p.playback then
    match p.handle_one fl 0 0 with
    | none => none
    | some (p1, l, r) =>
      let p2 := wrap_seconds { p1 with seconds_elapsed := p1.seconds_elapsed + p1.frequency }
      some (p2.maybe_echo_one l r)
  else some (p.maybe_echo_one 0 0)

/-- Frame iteration of `player::tick`, collecting the per-frame left/right
pairs in order. -/
def tick_go (fl : floatOps) : Nat → player → Option (player × List (ℚ × ℚ))
  | 0, p => some (p, [])
  | n + 1, p =>
    match frame fl p with
    | none => none
    | some (p1, l, r) =>
      match tick_go fl n p1 with
      | none => none
      | some (p2, lrs) => some (p2, (l, r) :: lrs)

/-- Number of frames `player::tick` renders into a buffer of `size` slots:
`i += 2` up to `size` in stereo (an odd size still renders the final frame,
whose right sample lands past the end), `i += 1` in mono. -/
def num_frames (stereo : Bool) (size : Nat) : Nat :=
  if stereo then (size + 1) / 2 else size

/-- Slot values one frame writes (axolotlsd.cpp:267-268 and 286): clamped
left and right in stereo, the clamped average in mono. -/
def frame_out (stereo : Bool) (lr : ℚ × ℚ) : List ℚ :=
  if stereo then [clampQ lr.1 (-1) 1, clampQ lr.2 (-1) 1]
  else [clampQ ((lr.1 + lr.2) / 2) (-1) 1]

/-- Source `player::tick` (axolotlsd.cpp:249): renders the frames and
flattens the written slot values in buffer order.  `none` models the
`std::out_of_range` escaping from `handle_one`. -/
def player.tick (fl : floatOps) (p : player) (size : Nat) :
    Option (player × List ℚ) :=
  match tick_go fl (num_frames p.in_stereo size) p with
  | none => none
  | some (p1, lrs) => some (p1, lrs.flatMap (frame_out p.in_stereo))

/-- Total number of voices with `active = true` across all channels. -/
def countActive (p : player) : Nat :=
  (p.channels.map (fun g => (g.voices.filter (fun v => v.active)).length)).sum

/-- Voice count `handle_one` actually reports: every voice (active or not)
of the drum channels and of the melodic channels with a bound program. -/
def countBound (p : player) : Nat :=
  ((p.channels.zip p.patch_ids).map (fun gp =>
    if gp.1.isDrum ∨ gp.2.isSome then gp.1.voices.length else 0)).sum

/-! Concrete instances used to exercise the theorems. -/

/-- Arbitrary instantiation of the transcendental float parameters. -/
def fl0 : floatOps := ⟨fun _ => 1, 3⟩

/-- Idle player at 48 kHz, mono, 8-voice budget, playing the empty song. -/
def p_base : player :=
  { seconds_elapsed := 0, seconds_end := 0, frequency := 1 / 48000
    max_voices := 8, on_voices := 0
    echo_buffer_L := fun _ => 0, echo_buffer_R := fun _ => 0
    echo_cursor := 0, env_params := none, cursor := 0, last_cursor := none
    current := initial_song, in_stereo := false
    channels := fresh_channels, patch_ids := List.replicate 16 none
    playback := true }

/-- Song rejected by the version gate, used below. -/
def sV2 : song :=
  { version := 2, ticks_end := 10, ticks_per_second := 100
    commands := [], patches := [], drums := [] }

/-- Looping patch used to exercise C5: four samples, loop region `[1, 3)`. -/
def pat5 : patch_t := ⟨[10, 20, 30, 40], 1, 1, 1, 1, 3⟩

/-- Held voice whose raw index 4 has passed `loop_end = 3`. -/
def v5 : voice_single := ⟨1, 1, 60, 4, true, true⟩

/-- Player whose dispatch guard is false: `last_cursor = some 5` while the
derived cursor is 0. -/
def pC6 : player := { p_base with last_cursor := some 5 }

/-- Paused player with no echo configured: every rendered frame is pure
silence. -/
def pW : player := { p_base with playback := false }

/-- Player whose channel 0 is bound to program 5 while the current song has
no patch 5: the mixing loop's `patches.at` lookup fails. -/
def pC1 : player :=
  { p_base with patch_ids := (List.replicate 16 (none : Option Nat)).set 0 (some 5) }

/-- One live active voice parked on melodic channel 0. -/
def vC3 : voice_single := ⟨1, 0, 60, 0, true, true⟩

/-- Player with an active voice on channel 0 but no program bound to it. -/
def pC3 : player :=
  { p_base with channels := fresh_channels.set 0 ⟨false, [vC3], 0⟩ }

/-- The state `handle_one` leaves `pC3` in (only the dispatch memory is
recorded; the voice survives uncounted). -/
def pC3r : player := { pC3 with last_cursor := some 0 }

/-- On-voices count reported by `handle_one` on `pC3`. -/
def c3_reported : Option Nat :=
  (player.handle_one fl0 pC3 0 0).map (fun x => x.1.on_voices)

/-- Number of voices with `active = true` after `handle_one` on `pC3`. -/
def c3_active_total : Option Nat :=
  (player.handle_one fl0 pC3 0 0).map (fun x => countActive x.1)

/-- AXSD stream: magic followed by a single EndOfTrack record at tick 5. -/
def c4_data : List Nat := [0x41, 0x58, 0x53, 0x44, 0xFE, 5, 0, 0, 0]

/-- Final tick of the decoded `c4_data` song. -/
def c4_ticks : Option Nat := (song.load c4_data).toOption.map song.ticks_end

/-- Command schedule of the decoded `c4_data` song. -/
def c4_cmds : Option (List (Nat × command)) :=
  (song.load c4_data).toOption.map song.commands

/-- Song whose track ends at tick 0 (`seconds_end = 0`) yet still schedules
a program change and a note at tick 0, with a one-sample patch. -/
def sC7 : song :=
  { version := 3, ticks_end := 0, ticks_per_second := 48000
    commands := [(0, .program_change 0 0), (0, .note_on 0 69 127)]
    patches := [(0, ⟨[255], 1, 1, 1, 0xFFFFFFFF, 0⟩)], drums := [] }

/-- Player rendering `sC7`: `seconds_end = 0` as `play` would compute it. -/
def pC7 : player := { p_base with current := sC7 }

/-- Slot values `tick` writes for one mono frame of `pC7`. -/
def c7_out : Option (List ℚ) := (player.tick fl0 pC7 1).map (fun x => x.2)

/-- AXSD stream: magic followed by a NoteOn record with channel byte 200. -/
def c10_data : List Nat := [0x41, 0x58, 0x53, 0x44, 0x01, 0, 0, 0, 0, 200, 60, 100]

/-- Command schedule of the decoded `c10_data` song. -/
def c10_cmds : Option (List (Nat × command)) :=
  (song.load c10_data).toOption.map song.commands

/-! Claim theorems.  Batteries marks the `Rat` arithmetic operations
`@[irreducible]`, which blocks the elaborator (not the kernel) from
evaluating concrete rational states; the local attribute below restores
evaluation for the witness proofs in this section. -/

section

attribute [local semireducible] Rat.add Rat.mul Rat.inv Rat.sub

/-- C8: `pause()` sets `playback` to `false` and changes no other player
field (buffers, cursors, voices, song all unchanged); consequently calling
`pause` twice is equivalent to calling it once. -/
theorem pause_sets_only_playback (p : player) :
    p.pause.playback = false ∧
    p.pause.seconds_elapsed = p.seconds_elapsed ∧
    p.pause.seconds_end = p.seconds_end ∧
    p.pause.frequency = p.frequency ∧
    p.pause.max_voices = p.max_voices ∧
    p.pause.on_voices = p.on_voices ∧
    p.pause.echo_buffer_L = p.echo_buffer_L ∧
    p.pause.echo_buffer_R = p.echo_buffer_R ∧
    p.pause.echo_cursor = p.echo_cursor ∧
    p.pause.env_params = p.env_params ∧
    p.pause.cursor = p.cursor ∧
    p.pause.last_cursor = p.last_cursor ∧
    p.pause.current = p.current ∧
    p.pause.in_stereo = p.in_stereo ∧
    p.pause.channels = p.channels ∧
    p.pause.patch_ids = p.patch_ids ∧
    p.pause.pause = p.pause := by
  exact ⟨rfl, rfl, rfl, rfl, rfl, rfl, rfl, rfl, rfl, rfl, rfl, rfl, rfl, rfl,
    rfl, rfl, rfl⟩

/-- C9: `play` on a song whose version is not 3 errors out only after having
swapped the rejected song in, replaced the 16 channel groups, cleared every
patch binding and recomputed `seconds_elapsed`/`seconds_end`; the fields
assigned after the throw site (`playback`, `on_voices`, `cursor`,
`echo_cursor`, `last_cursor`) keep their pre-call values. -/
theorem play_version_mismatch_state (p : player) (next : song)
    (env : Option environment) (h : next.version ≠ 3) :
    p.play next env =
      .error
        { p with
            env_params := env
            current := next
            channels := fresh_channels
            patch_ids := List.replicate 16 none
            seconds_elapsed := 0
            seconds_end := (next.ticks_end : ℚ) / (next.ticks_per_second : ℚ) } ∧
    ∀ q, p.play next env = .error q →
      q.playback = p.playback ∧ q.on_voices = p.on_voices ∧ q.cursor = p.cursor ∧
      q.echo_cursor = p.echo_cursor ∧ q.last_cursor = p.last_cursor ∧
      q.current = next := by
  have heq : p.play next env =
      .error
        { p with
            env_params := env
            current := next
            channels := fresh_channels
            patch_ids := List.replicate 16 none
            seconds_elapsed := 0
            seconds_end := (next.ticks_end : ℚ) / (next.ticks_per_second : ℚ) } := by
    unfold player.play
    simp only [if_pos h]
  refine ⟨heq, fun q hq => ?_⟩
  rw [heq] at hq
  cases hq
  exact ⟨rfl, rfl, rfl, rfl, rfl, rfl⟩

/-- Witness for C9 at a concrete player and version-2 song. -/
theorem play_version_mismatch_state_witness :
    p_base.play sV2 none =
      .error
        { p_base with
            env_params := none
            current := sV2
            channels := fresh_channels
            patch_ids := List.replicate 16 none
            seconds_elapsed := 0
            seconds_end := (sV2.ticks_end : ℚ) / (sV2.ticks_per_second : ℚ) } :=
  (play_version_mismatch_state p_base sV2 none (by decide)).1

/-- C5: under the patch invariant, a looping patch with the key held folds an
index past `loop_end` back to
`(here - loop_start) % (loop_end - loop_start) + loop_start` (which lands in
`[loop_start, loop_end)`); with the key released or a non-looping patch, an
index at or past the waveform end deactivates the voice and contributes 0 to
the frame's mix. -/
theorem voice_fold_and_runoff (patch : patch_t) (v : voice_single) (l r : ℚ)
    (hinv : patch.loop_start = 0xFFFFFFFF ∨
      (patch.loop_start < patch.loop_end ∧
        patch.loop_end ≤ patch.waveform.length)) :
    (patch.loop_start ≠ 0xFFFFFFFF →
      patch.loop_end < f32_to_u32 (patch.ratio * v.phase) →
      v.key = true →
      voice_index patch v =
        (f32_to_u32 (patch.ratio * v.phase) - patch.loop_start) %
          (patch.loop_end - patch.loop_start) + patch.loop_start ∧
      patch.loop_start ≤ voice_index patch v ∧
      voice_index patch v < patch.loop_end) ∧
    ((v.key = false ∨ patch.loop_start = 0xFFFFFFFF) →
      patch.waveform.length ≤ f32_to_u32 (patch.ratio * v.phase) →
      (voice_step patch v).1.active = false ∧
      (voice_step patch v).2 = 0 ∧
      voice_group_accumulate_into patch [v] l r =
        ([(voice_step patch v).1], l, r)) := by
  constructor
  · intro h1 h2 h3
    have hlt : patch.loop_start < patch.loop_end := by
      rcases hinv with h | h
      · exact absurd h h1
      · exact h.1
    have hidx : voice_index patch v =
        (f32_to_u32 (patch.ratio * v.phase) - patch.loop_start) %
          (patch.loop_end - patch.loop_start) + patch.loop_start := by
      unfold voice_index
      rw [if_pos ⟨h1, h2, h3⟩]
    refine ⟨hidx, ?_, ?_⟩
    · rw [hidx]; omega
    · rw [hidx]
      have hmod :
          (f32_to_u32 (patch.ratio * v.phase) - patch.loop_start) %
            (patch.loop_end - patch.loop_start) <
            patch.loop_end - patch.loop_start :=
        Nat.mod_lt _ (by omega)
      omega
  · intro hk hlen
    have hidx : voice_index patch v = f32_to_u32 (patch.ratio * v.phase) := by
      unfold voice_index
      rw [if_neg]
      rintro ⟨hne, -, hkey⟩
      rcases hk with hk | hk
      · rw [hk] at hkey; exact Bool.false_ne_true hkey
      · exact hne hk
    have hstep : voice_step patch v =
        ({ v with active := false, phase := v.phase + v.phase_add_by }, 0) := by
      unfold voice_step
      rw [hidx, if_pos hlen]
    refine ⟨by rw [hstep], by rw [hstep], ?_⟩
    show (let x := voice_step patch v
      let out := voice_group_accumulate_into patch []
        (l + x.2 * v.velocity * patch.gain_L) (r + x.2 * v.velocity * patch.gain_R)
      (x.1 :: out.1, out.2)) = ([(voice_step patch v).1], l, r)
    rw [hstep]
    norm_num [voice_group_accumulate_into]

/-- Witness for C5: the held voice at raw index 4 is folded to
`(4 - 1) % 2 + 1 = 2`, inside the loop region. -/
theorem voice_fold_and_runoff_witness :
    voice_index pat5 v5 =
      (f32_to_u32 (pat5.ratio * v5.phase) - pat5.loop_start) %
        (pat5.loop_end - pat5.loop_start) + pat5.loop_start ∧
    pat5.loop_start ≤ voice_index pat5 v5 ∧
    voice_index pat5 v5 < pat5.loop_end :=
  (voice_fold_and_runoff pat5 v5 0 0 (Or.inr (by decide))).1 (by decide)
    (by decide) rfl

/-- C6: a frame dispatches events only when `last_cursor` is unset or the
derived cursor exceeds it; it then dispatches exactly the events keyed by
the current cursor, so events at intermediate ticks jumped over are never
dispatched, and with the guard false the dispatch stage only refreshes the
cursor field. -/
theorem dispatch_only_current_cursor (fl : floatOps) (p : player) (t : Nat)
    (e : command) :
    (dispatch_guard p (next_cursor p) = true ↔
      p.last_cursor = none ∨
        ∃ lc, p.last_cursor = some lc ∧ lc < next_cursor p) ∧
    ((t, e) ∈ dispatched_cmds p ↔
      dispatch_guard p (next_cursor p) = true ∧
        (t, e) ∈ p.current.commands ∧ t = next_cursor p) ∧
    (dispatch_guard p (next_cursor p) = false →
      dispatch_stage fl p = some { p with cursor := next_cursor p }) := by
  refine ⟨?_, ?_, ?_⟩
  · cases h : p.last_cursor <;> simp [dispatch_guard, h]
  · unfold dispatched_cmds
    cases h : dispatch_guard p (next_cursor p) <;>
      simp [h, List.mem_filter]
  · intro h
    simp [dispatch_stage, h]

/-- Witness for C6: with the guard false the dispatch stage only refreshes
the cursor field. -/
theorem dispatch_only_current_cursor_witness :
    dispatch_stage fl0 pC6 = some { pC6 with cursor := next_cursor pC6 } :=
  (dispatch_only_current_cursor fl0 pC6 0 .end_of_track).2.2 (by decide)

/-- Clamp lands in `[lo, hi]` whenever the interval is nonempty. -/
theorem clampQ_bounds (v lo hi : ℚ) (h : lo ≤ hi) :
    lo ≤ clampQ v lo hi ∧ clampQ v lo hi ≤ hi := by
  unfold clampQ
  split_ifs with h1 h2
  · exact ⟨le_refl lo, h⟩
  · exact ⟨h, le_refl hi⟩
  · exact ⟨le_of_not_lt h1, le_of_not_lt h2⟩

/-- Every slot value a frame writes is clamped into `[-1, 1]`. -/
theorem frame_out_bounds (st : Bool) (lr : ℚ × ℚ) (x : ℚ)
    (hx : x ∈ frame_out st lr) : -1 ≤ x ∧ x ≤ 1 := by
  have h : (-1 : ℚ) ≤ 1 := by norm_num
  cases st <;> simp only [frame_out, Bool.false_eq_true, if_false, if_true,
    List.mem_cons, List.mem_singleton, List.not_mem_nil, or_false] at hx
  · rw [hx]; exact clampQ_bounds _ _ _ h
  · rcases hx with hx | hx <;> rw [hx] <;> exact clampQ_bounds _ _ _ h

/-- Flattening one-element blocks is a map. -/
theorem flatMap_singleton_eq_map (l : List (ℚ × ℚ)) (f : ℚ × ℚ → ℚ) :
    l.flatMap (fun a => [f a]) = l.map f := by
  induction l with
  | nil => rfl
  | cons a t ih => simp [ih]

/-- C2: every value `tick` writes into the output buffer lies in
`[-1, 1]`, and in mono mode each slot receives `clamp((L+R)/2, -1, 1)` of
the frame's rendered left/right pair. -/
theorem tick_output_clamped (fl : floatOps) (p : player) (size : Nat)
    (p1 : player) (out : List ℚ)
    (h : p.tick fl size = some (p1, out)) :
    (∀ x ∈ out, -1 ≤ x ∧ x ≤ 1) ∧
    (p.in_stereo = false →
      ∃ lrs, tick_go fl (num_frames false size) p = some (p1, lrs) ∧
        out = lrs.map (fun lr => clampQ ((lr.1 + lr.2) / 2) (-1) 1)) := by
  unfold player.tick at h
  cases htg : tick_go fl (num_frames p.in_stereo size) p with
  | none => rw [htg] at h; cases h
  | some res =>
    obtain ⟨p2, lrs⟩ := res
    rw [htg] at h
    simp only [Option.some.injEq, Prod.mk.injEq] at h
    obtain ⟨hp, hout⟩ := h
    subst hp
    constructor
    · intro x hx
      rw [← hout] at hx
      obtain ⟨lr, -, hmem⟩ := List.mem_flatMap.mp hx
      exact frame_out_bounds _ _ _ hmem
    · intro hst
      rw [hst] at htg
      refine ⟨lrs, htg, ?_⟩
      rw [← hout, hst]
      exact flatMap_singleton_eq_map lrs _

/-- Witness for C2: a paused, echo-free player renders two zero slots, both
inside `[-1, 1]`. -/
theorem tick_output_clamped_witness : (-1 : ℚ) ≤ 0 ∧ (0 : ℚ) ≤ 1 :=
  (tick_output_clamped fl0 pW 2 pW [0, 0] rfl).1 0 (by decide)

/-- C1 (code-bug evidence): a frame rendered while channel 0 is bound to a
program absent from `song.patches` aborts `tick` (the source's
`current.patches.at(...)` throws `std::out_of_range`) instead of leaving
the channel silent. -/
theorem tick_aborts_on_missing_program :
    (player.tick fl0 pC1 1).isNone = true := by decide

/-- C3 counterexample: `handle_one` reports `on_voices = 0` while one voice
with `active = true` survives on the unbound melodic channel 0. -/
theorem on_voices_not_active_count :
    c3_reported = some 0 ∧ c3_active_total = some 1 ∧
      c3_reported ≠ c3_active_total := by decide

/-- Helper: one dispatched event never changes the channel-array or
patch-binding lengths. -/
theorem dispatch_one_sizes (fl : floatOps) (p q : player) (e : command)
    (h : dispatch_one fl p e = some q) :
    q.channels.length = p.channels.length ∧
      q.patch_ids.length = p.patch_ids.length := by
  cases e <;> simp only [dispatch_one] at h <;> repeat' split at h
  all_goals first
    | (obtain rfl := Option.some.inj h; simp [List.length_set])
    | cases h

/-- Helper: a dispatched event list never changes those lengths either. -/
theorem foldlM_dispatch_sizes (fl : floatOps) (cmds : List (Nat × command)) :
    ∀ p q : player,
      List.foldlM (fun a tc => dispatch_one fl a tc.2) p cmds = some q →
      q.channels.length = p.channels.length ∧
        q.patch_ids.length = p.patch_ids.length := by
  induction cmds with
  | nil =>
    intro p q h
    obtain rfl := Option.some.inj h
    exact ⟨rfl, rfl⟩
  | cons c cs ih =>
    intro p q h
    rw [List.foldlM_cons] at h
    cases hd : dispatch_one fl p c.2 with
    | none => rw [hd] at h; cases h
    | some a =>
      rw [hd] at h
      obtain ⟨h1, h2⟩ := ih a q h
      obtain ⟨h3, h4⟩ := dispatch_one_sizes fl p a c.2 hd
      exact ⟨h1.trans h3, h2.trans h4⟩

/-- Helper: the dispatch stage preserves the two lengths. -/
theorem dispatch_stage_sizes (fl : floatOps) (p p1 : player)
    (h : dispatch_stage fl p = some p1) :
    p1.channels.length = p.channels.length ∧
      p1.patch_ids.length = p.patch_ids.length := by
  simp only [dispatch_stage] at h
  split at h
  · cases hf : List.foldlM (fun q tc => dispatch_one fl q tc.2)
        { p with cursor := next_cursor p } (dispatched_cmds p) with
    | none => rw [hf] at h; cases h
    | some q =>
      rw [hf] at h
      simp only [Option.map_some', Option.some.injEq] at h
      obtain rfl := h.symm
      exact foldlM_dispatch_sizes fl (dispatched_cmds p)
        { p with cursor := next_cursor p } q hf
  · obtain rfl := Option.some.inj h
    exact ⟨rfl, rfl⟩

/-- Helper: the count `mix_one` reports is the channel's voice count when
the channel is a drum kit or has a bound program, and 0 otherwise. -/
theorem mix_one_count (drums : List (Nat × drum_t))
    (patches : List (Nat × patch_t)) (pid : Option Nat) (g : group)
    (l r : ℚ) (g1 : group) (n : Nat) (l1 r1 : ℚ)
    (h : mix_one drums patches pid g l r = some (g1, n, l1, r1)) :
    n = if g1.isDrum ∨ pid.isSome then g1.voices.length else 0 := by
  simp only [mix_one] at h
  repeat' split at h
  all_goals first
    | exact Option.noConfusion h
    | (simp only [Option.some.injEq, Prod.mk.injEq] at h
       obtain ⟨hg, hn, -⟩ := h
       rw [← hg, ← hn]
       simp_all)

/-- Helper: the total the mixing loop reports is the sum of per-channel
counts over the channels paired with their bindings. -/
theorem mix_channels_count (drums : List (Nat × drum_t))
    (patches : List (Nat × patch_t)) (pairs : List (group × Option Nat)) :
    ∀ (l r : ℚ) (gs : List group) (n : Nat) (l2 r2 : ℚ),
      mix_channels drums patches pairs l r = some (gs, n, l2, r2) →
      n = ((gs.zip (pairs.map Prod.snd)).map
        (fun gp => if gp.1.isDrum ∨ gp.2.isSome then gp.1.voices.length else 0)).sum ∧
      gs.length = pairs.length := by
  induction pairs with
  | nil =>
    intro l r gs n l2 r2 h
    simp only [mix_channels, Option.some.injEq, Prod.mk.injEq] at h
    obtain ⟨hgs, hn, -⟩ := h
    rw [← hgs, ← hn]
    simp
  | cons gp rest ih =>
    intro l r gs n l2 r2 h
    obtain ⟨g, pid⟩ := gp
    cases h1 : mix_one drums patches pid g l r with
    | none => simp only [mix_channels, h1] at h; exact Option.noConfusion h
    | some res1 =>
      obtain ⟨g1, n1, la, ra⟩ := res1
      cases h2 : mix_channels drums patches rest la ra with
      | none => simp only [mix_channels, h1, h2] at h; exact Option.noConfusion h
      | some res2 =>
        obtain ⟨gs2, m, lb, rb⟩ := res2
        simp only [mix_channels, h1, h2, Option.some.injEq, Prod.mk.injEq] at h
        obtain ⟨hgs, hn, -⟩ := h
        obtain ⟨hm, hlen⟩ := ih la ra gs2 m lb rb h2
        rw [← hgs, ← hn]
        constructor
        · simp only [List.map_cons, List.zip_cons_cons, List.sum_cons]
          rw [mix_one_count drums patches pid g l r g1 n1 la ra h1, hm]
        · simp [hlen]

/-- Helper: the second components of a zip of equal-length lists. -/
theorem map_snd_zip_of_length_eq (l1 : List group) (l2 : List (Option Nat))
    (h : l2.length ≤ l1.length) : (l1.zip l2).map Prod.snd = l2 := by
  induction l1 generalizing l2 with
  | nil =>
    cases l2 with
    | nil => rfl
    | cons b t => simp at h
  | cons a t ih =>
    cases l2 with
    | nil => rfl
    | cons b t2 =>
      simp only [List.zip_cons_cons, List.map_cons]
      rw [ih t2 (by simpa using h)]

/-- C3 (amended): after a successful `handle_one` the reported `on_voices`
equals the number of voices — active or just deactivated — in the drum
channels plus the melodic channels with a bound program; voices on melodic
channels without a binding are not counted. -/
theorem on_voices_counts_bound_channels (fl : floatOps) (p : player)
    (l r : ℚ) (p1 : player) (l1 r1 : ℚ)
    (hlen : p.channels.length = p.patch_ids.length)
    (h : p.handle_one fl l r = some (p1, l1, r1)) :
    p1.on_voices = countBound p1 := by
  cases hd : dispatch_stage fl p with
  | none => simp only [player.handle_one, hd] at h; exact Option.noConfusion h
  | some p2 =>
    have hsz := dispatch_stage_sizes fl p p2 hd
    cases hm : mix_channels p2.current.drums p2.current.patches
        (p2.channels.zip p2.patch_ids) l r with
    | none => simp only [player.handle_one, hd, mix_stage, hm] at h; exact Option.noConfusion h
    | some res =>
      obtain ⟨gs, n, l2, r2⟩ := res
      simp only [player.handle_one, hd, mix_stage, hm, Option.some.injEq,
        Prod.mk.injEq] at h
      obtain ⟨hp1, -, -⟩ := h
      obtain ⟨hn, hglen⟩ := mix_channels_count _ _ _ l r gs n l2 r2 hm
      have hmap : ((p2.channels.zip p2.patch_ids).map Prod.snd) = p2.patch_ids :=
        map_snd_zip_of_length_eq _ _ (by omega)
      rw [hmap] at hn
      rw [← hp1]
      simpa [countBound] using hn

/-- Witness for C3's amended statement at the concrete player `pC3`. -/
theorem on_voices_counts_bound_channels_witness :
    pC3r.on_voices = countBound pC3r :=
  on_voices_counts_bound_channels fl0 pC3 0 0 pC3r 0 0 (by decide) rfl

/-- C4 counterexample: decoding a stream with one EndOfTrack record carrying
tick 5 sets `ticks_end` to 5 but indexes the EndOfTrack event at tick 0, not
at the final tick. -/
theorem end_of_track_not_at_final_tick :
    c4_ticks = some 5 ∧ c4_cmds = some [(0, .end_of_track)] ∧
      c4_cmds ≠ some [(5, .end_of_track)] := by decide

/-- C4 (amended): an EndOfTrack record indexes its event at the `ticks_end`
value held *before* the record is processed (0 for the first such record)
and only then sets `ticks_end` to the carried tick. -/
theorem end_of_track_indexed_at_previous (data : List Nat) (w fuel : Nat)
    (s : song) (t0 t1 t2 t3 : Nat) (hw : w < data.length)
    (htag : data.getD w 0 = 0xFE)
    (hp : read_bytes data (w + 1) 4 = .ok [t0, t1, t2, t3]) :
    load_loop data w (fuel + 1) s =
      load_loop data (w + 5) fuel
        { s with commands := s.commands ++ [(s.ticks_end, .end_of_track)]
                 ticks_end := le32 t0 t1 t2 t3 } := by
  have h5 : w + 1 + 4 = w + 5 := by omega
  simp only [load_loop, if_pos hw, htag, byte_size]
  norm_num [decode_record, apply_end_of_track, h5]
  rw [hp]
  simp

/-- Witness for C4's amended statement on the concrete stream `c4_data`. -/
theorem end_of_track_indexed_at_previous_witness :
    load_loop c4_data 4 (5 + 1) initial_song =
      load_loop c4_data (4 + 5) 5
        { initial_song with
            commands := initial_song.commands ++
              [(initial_song.ticks_end, .end_of_track)]
            ticks_end := le32 5 0 0 0 } :=
  end_of_track_indexed_at_previous c4_data 4 5 initial_song 5 0 0 0
    (by decide) (by decide) (by rfl)

/-- C7 (code-bug evidence): with `ticks_end = 0` (so `seconds_end = 0`) the
source has no silence guard — the first mono frame of `pC7` renders the
dispatched note at `127/128`, not silence. -/
theorem tick_not_silent_at_zero_end :
    c7_out = some [127 / 128] ∧ ((127 : ℚ) / 128) ≠ 0 := by decide

/-- C10: dispatch indexes the 16-slot channel and patch-binding arrays with
the event's channel byte unchecked — a byte ≥ 16 runs past both arrays
(`none`), a byte ≤ 15 stays in bounds — and the decoder stores the channel
byte of a NoteOn record unvalidated (byte 200 survives into the schedule). -/
theorem channel_byte_unchecked (fl : floatOps) (p : player)
    (ch note vel prog : Nat) (bend : Int)
    (hch : p.channels.length = 16) (hpi : p.patch_ids.length = 16) :
    (16 ≤ ch →
      (p.on_voices < p.max_voices →
        dispatch_one fl p (.note_on ch note vel) = none) ∧
      dispatch_one fl p (.note_off ch) = none ∧
      dispatch_one fl p (.pitchwheel ch bend) = none ∧
      dispatch_one fl p (.program_change ch prog) = none) ∧
    (ch < 16 →
      (dispatch_one fl p (.note_on ch note vel)).isSome = true ∧
      (dispatch_one fl p (.note_off ch)).isSome = true ∧
      (dispatch_one fl p (.pitchwheel ch bend)).isSome = true ∧
      (dispatch_one fl p (.program_change ch prog)).isSome = true) ∧
    c10_cmds = some [(0, .note_on 200 60 100)] := by
  refine ⟨?_, ?_, by decide⟩
  · intro h16
    have hnone : p.channels[ch]? = none := List.getElem?_eq_none (by omega)
    refine ⟨?_, ?_, ?_, ?_⟩
    · intro hb
      simp [dispatch_one, hb, hnone]
    · simp [dispatch_one, hnone]
    · simp [dispatch_one, hnone]
    · simp only [dispatch_one]
      rw [if_neg (by omega)]
  · intro h16
    have hlt : ch < p.channels.length := by omega
    have hg : p.channels[ch]? = some (p.channels.get ⟨ch, hlt⟩) := by
      simp [List.getElem?_eq_getElem hlt]
    refine ⟨?_, ?_, ?_, ?_⟩
    · simp only [dispatch_one, hg]
      split_ifs <;> simp
    · simp [dispatch_one, hg]
    · simp only [dispatch_one, hg]
      split_ifs <;> simp
    · simp only [dispatch_one]
      rw [if_pos (by omega)]
      simp

/-- Witness for C10: a NoteOff with channel byte 200 runs past the channel
array. -/
theorem channel_byte_unchecked_witness :
    dispatch_one fl0 p_base (.note_off 200) = none :=
  ((channel_byte_unchecked fl0 p_base 200 60 100 0 0 (by decide)
    (by decide)).1 (by decide)).2.1

end

end axolotlsd
